import Mathlib

/-!
# Aptomi: policy view, component actions and dependency loading

A shallow embedding of

* `pkg/lang/policy_view.go` (namespace `lang`),
* `pkg/slinga/engine/apply/action/component/{create,update,delete}.go`
  (namespace `component`),
* `pkg/slinga/dependency.go` (namespace `slinga`),

followed by the properties established about them.

Conventions.  A Go `error` is represented by its message: every error built in
these files comes from `fmt.Errorf`, so the message is all a caller can inspect.
A Go result pair `(value, error)` in which a non-nil error takes priority is
rendered as `Except GoError value`, with `Option` around the value where the
callee may answer nil without error (`GetObject`).  A Go run-time panic (nil
dereference, failed type assertion, explicit `Panic`) is the `panicked` outcome.
-/

/-- A Go `error` value, identified with the text `Error()` returns. -/
structure GoError where
  msg : String
  deriving DecidableEq, Repr

/-- Result of running Go code that may panic instead of returning. -/
inductive Outcome (α : Type) where
  | returned (a : α)
  | panicked (why : String)
  deriving Repr

namespace lang

/-- The part of `object.Base` the policy view reads: `GetNamespace()`,
`GetKind()` and `GetName()`. -/
structure Base where
  Namespace : String
  Kind : String
  Name : String
  deriving DecidableEq, Repr

/-- A user; only `ID` is read by the policy view. -/
structure User where
  ID : String
  deriving DecidableEq, Repr

/-- Result of the ACL resolver: the two privilege flags read by the view. -/
structure Privilege where
  View : Bool
  Manage : Bool
  deriving DecidableEq, Repr

/-- A policy, as far as `policy_view.go` touches it.  `Policy.GetObject`,
`Policy.AddObject` and `aclResolver.GetUserPrivileges` are declared outside the
files at hand, so they are taken as parameters: `Store` is the contents of the
policy, `getObject` and `addObject` read and extend it, and `aclResolver`
answers privilege queries.  `getObject` answers an error, a nil object without
error (`.ok none`) or an object; the resolver is handed whatever object the
lookup gave, nil included. -/
structure Policy (Store : Type) where
  store : Store
  getObject : Store → String → String → String → Except GoError (Option Base)
  addObject : Store → Base → Store
  aclResolver : User → Option Base → Except GoError Privilege

/-- Method `Policy.GetObject(kind, locator, currentNs)`. -/
def Policy.GetObject {Store : Type} (p : Policy Store) (kind locator currentNs : String) :
    Except GoError (Option Base) :=
  p.getObject p.store kind locator currentNs

/-- Method `Policy.AddObject(obj)`: the policy after the object has been added. -/
def Policy.AddObject {Store : Type} (p : Policy Store) (obj : Base) : Policy Store :=
  { p with store := p.addObject p.store obj }

/-- The view of a policy on behalf of a user. -/
structure PolicyView (Store : Type) where
  Policy : Policy Store
  User : User

/-- The text of a permission denial:
`fmt.Errorf("user '%s' doesn't have permissions to <verb> object '%s/%s/%s'", ...)`. -/
def denied (verb : String) (user : User) (obj : Base) : GoError :=
  ⟨"user '" ++ user.ID ++ "' doesn't have permissions to " ++ verb ++ " object '"
    ++ obj.Namespace ++ "/" ++ obj.Kind ++ "/" ++ obj.Name ++ "'"⟩

/-- The panic of calling a method on a nil object. -/
def nilObject : String := "invalid memory address or nil pointer dereference"

/-- What `ViewObject` and `ManageObject` yield: a panic, or the returned pair
`(object, error)` with `.error err` for `(nil, err)`, `.ok (some obj)` for
`(obj, nil)` and `.ok none` for `(nil, nil)`. -/
abbrev Lookup := Outcome (Except GoError (Option Base))

/-- `PolicyView.AddObject`: the policy after the call and the returned error
(`none` is Go's `nil`). -/
def PolicyView.AddObject {Store : Type} (policyView : PolicyView Store) (obj : Base) :
    PolicyView Store × Option GoError :=
  match policyView.Policy.aclResolver policyView.User (some obj) with
  | .error err => (policyView, some err)
  | .ok privilege =>
    if !privilege.Manage then
      (policyView, some (denied "manage" policyView.User obj))
    else
      ({ policyView with Policy := policyView.Policy.AddObject obj }, none)

/-- `PolicyView.ViewObject`.  There is no nil check on the object the lookup
gave: a nil object goes to the resolver, is returned as it is when viewing is
granted, and is dereferenced (`obj.GetNamespace()`) when the denial is
formatted. -/
def PolicyView.ViewObject {Store : Type} (policyView : PolicyView Store)
    (kind locator currentNs : String) : Lookup :=
  match policyView.Policy.GetObject kind locator currentNs with
  | .error err => .returned (.error err)
  | .ok obj =>
    match policyView.Policy.aclResolver policyView.User obj with
    | .error err => .returned (.error err)
    | .ok privilege =>
      if !privilege.View then
        match obj with
        | some found => .returned (.error (denied "view" policyView.User found))
        | none => .panicked nilObject
      else
        .returned (.ok obj)

/-- `PolicyView.ManageObject`.  There is no nil check on the object the lookup
gave: a nil object goes to the resolver, is returned as it is when managing is
granted, and is dereferenced (`obj.GetNamespace()`) when the denial is
formatted. -/
def PolicyView.ManageObject {Store : Type} (policyView : PolicyView Store)
    (kind locator currentNs : String) : Lookup :=
  match policyView.Policy.GetObject kind locator currentNs with
  | .error err => .returned (.error err)
  | .ok obj =>
    match policyView.Policy.aclResolver policyView.User obj with
    | .error err => .returned (.error err)
    | .ok privilege =>
      if !privilege.Manage then
        match obj with
        | some found => .returned (.error (denied "manage" policyView.User found))
        | none => .panicked nilObject
      else
        .returned (.ok obj)

end lang

namespace component

/-- An instant of `time.Time`, as a count of clock units. -/
abbrev Time := Int

/-- A value of Go type `interface{}` stored in a parameter map: either a string
or a value of some other dynamic type. -/
inductive ParamValue where
  | str (s : String)
  | other (rendering : String)
  deriving DecidableEq, Repr

/-- `NestedParameterMap`, a `map[string]interface{}`. -/
abbrev NestedParameterMap := List (String × ParamValue)

/-- Go map read `m[key]`; `none` is the nil interface of an absent key. -/
def NestedParameterMap.get (m : NestedParameterMap) (key : String) : Option ParamValue :=
  List.lookup key m

/-- The key of a component instance.  `GetKey()` is declared outside the files
at hand; its rendering is carried as the field `key`. -/
structure ComponentInstanceKey where
  Namespace : String
  ServiceName : String
  ComponentName : String
  key : String
  deriving DecidableEq, Repr

/-- Method `GetKey()` of a component instance key. -/
def ComponentInstanceKey.GetKey (k : ComponentInstanceKey) : String := k.key

/-- A component instance record.  The actions read `Key` (`Metadata.Key`),
`CalculatedCodeParams` and `CreatedOn`; the remaining fields are the ones the
data model lists for an instance. -/
structure ComponentInstance where
  Key : ComponentInstanceKey
  DependencyIds : List String
  CalculatedCodeParams : NestedParameterMap
  CalculatedDiscovery : NestedParameterMap
  CreatedOn : Time
  UpdatedOn : Time
  deriving DecidableEq, Repr

/-- Method `GetKey()` of a component instance. -/
def ComponentInstance.GetKey (inst : ComponentInstance) : String := inst.Key.GetKey

/-- Modelled from the spec: `ComponentInstance.UpdateTimes` is declared outside
the files at hand.  The action semantics ("set `created_at = updated_at = now`",
"preserve `created_at`; set `updated_at = now`") make it store its two arguments
as the creation and the update time. -/
def ComponentInstance.UpdateTimes (inst : ComponentInstance) (createdOn updatedOn : Time) :
    ComponentInstance :=
  { inst with CreatedOn := createdOn, UpdatedOn := updatedOn }

/-- The code spec of a component; `CodeType` is the field `Type`. -/
structure Code where
  CodeType : String
  deriving DecidableEq, Repr

/-- A component of a service: a code component carries a code spec. -/
structure ServiceComponent where
  Name : String
  Code : Option Code
  deriving DecidableEq, Repr

/-- A service with its ordered list of components. -/
structure Service where
  Name : String
  Components : List ServiceComponent
  deriving DecidableEq, Repr

/-- Modelled from the spec: `Service.GetComponentsMap` is declared outside the
files at hand.  It indexes the components of the service by name; this is the
read `GetComponentsMap()[name]`, where a later component of the same name takes
the place of an earlier one and `none` is the nil of an absent name. -/
def Service.GetComponentsMap (service : Service) (name : String) : Option ServiceComponent :=
  service.Components.reverse.find? (fun c => c.Name == name)

/-- A cluster object. -/
structure Cluster where
  Name : String
  ClusterType : String
  deriving DecidableEq, Repr

/-- An object returned by `Policy.GetObject`, by dynamic type. -/
inductive PolicyObject where
  | service (s : Service)
  | cluster (c : Cluster)
  | other (kind : String)
  deriving DecidableEq, Repr

/-- Modelled from the spec: the constant `language.LabelCluster` is declared
outside the files at hand; the cluster name is read from the code params under
key `cluster`, as the create and delete actions do literally. -/
def LabelCluster : String := "cluster"

/-- Modelled from the spec: the constant `object.SystemNS`, the reserved
namespace `system` of cluster objects. -/
def SystemNS : String := "system"

/-- Modelled from the spec: the constant `language.ServiceObject.Kind`; its value
is only ever handed to `GetObject`, itself a parameter. -/
def ServiceObjectKind : String := "service"

/-- Modelled from the spec: the constant `language.ClusterObject.Kind`; its value
is only ever handed to `GetObject`, itself a parameter. -/
def ClusterObjectKind : String := "cluster"

/-- A policy snapshot as the actions read it: the maps `Services` and `Clusters`
(create, delete) and the method `GetObject` (update), which is declared outside
the files at hand and taken as a parameter.  `GetObject` answers an error, a nil
object (`none`) or an object. -/
structure Policy where
  Services : String → Option Service
  Clusters : String → Option Cluster
  GetObject : String → String → String → Except GoError (Option PolicyObject)

/-- A deployment driver: `Create / Update / Destroy (cluster, key, params, log)`,
each answering an error or nil.  Driver bodies are external. -/
structure DeployPlugin where
  Create : Cluster → String → NestedParameterMap → Option GoError
  Update : Cluster → String → NestedParameterMap → Option GoError
  Destroy : Cluster → String → NestedParameterMap → Option GoError

/-- The driver registry `context.Plugins`. -/
structure PluginRegistry where
  GetDeployPlugin : String → Except GoError DeployPlugin

/-- The state store `context.ActualStateUpdater`. -/
structure Updater where
  Create : ComponentInstance → Option GoError
  Update : ComponentInstance → Option GoError
  Delete : String → Option GoError

/-- The fields attached to an info entry of the event log. -/
structure Fields where
  componentKey : ComponentInstanceKey
  component : String
  code : NestedParameterMap
  deriving DecidableEq, Repr

/-- An entry of the event log: `WithFields(...).Info(msg)` or `LogError(err)`. -/
inductive LogEntry where
  | info (fields : Fields) (msg : String)
  | error (err : GoError)
  deriving DecidableEq, Repr

/-- A record of one interaction with a collaborator of the executor: reading a
cluster out of a policy, asking the registry for a driver, invoking a driver,
mutating the state store. -/
inductive Call where
  | clusterLookup (name : String)
  | pluginLookup (codeType : String)
  | driverCreate (cluster : Cluster) (key : String) (params : NestedParameterMap)
  | driverUpdate (cluster : Cluster) (key : String) (params : NestedParameterMap)
  | driverDestroy (cluster : Cluster) (key : String) (params : NestedParameterMap)
  | storeCreate (inst : ComponentInstance)
  | storeUpdate (inst : ComponentInstance)
  | storeDelete (key : String)
  deriving DecidableEq, Repr

/-- A desired or actual state: `ComponentInstanceMap`, a map from component key
to instance (`none` is the nil pointer of an absent key). -/
structure State where
  ComponentInstanceMap : String → Option ComponentInstance

/-- Go map write `m[key] = instance`. -/
def State.set (s : State) (key : String) (inst : ComponentInstance) : State :=
  ⟨fun k => if k = key then some inst else s.ComponentInstanceMap k⟩

/-- Go `delete(m, key)`. -/
def State.delete (s : State) (key : String) : State :=
  ⟨fun k => if k = key then none else s.ComponentInstanceMap k⟩

/-- `action.Context`, together with what the model observes of the outside:
`EventLog` is the list of entries written so far, `Calls` the interactions with
collaborators so far, and `Clock n` the value of the `n`-th call of `time.Now()`,
of which `ClockReads` have been made. -/
structure Context where
  DesiredPolicy : Policy
  ActualPolicy : Policy
  DesiredState : State
  ActualState : State
  ActualStateUpdater : Updater
  Plugins : PluginRegistry
  EventLog : List LogEntry
  Calls : List Call
  Clock : Nat → Time
  ClockReads : Nat

/-- Append an entry to the event log. -/
def Context.log (context : Context) (entry : LogEntry) : Context :=
  { context with EventLog := context.EventLog ++ [entry] }

/-- Append an interaction to the record of calls. -/
def Context.record (context : Context) (call : Call) : Context :=
  { context with Calls := context.Calls ++ [call] }

/-- What an action step yields: the context afterwards and the returned error. -/
abbrev Step := Outcome (Context × Option GoError)

/-- `fmt.Errorf("No cluster specified in code params, component instance: %v", key)`. -/
def noClusterSpecified (componentKey : String) : GoError :=
  ⟨"No cluster specified in code params, component instance: " ++ componentKey⟩

/-- `fmt.Errorf("Can't find cluster in policy: %s", clusterName)`. -/
def cantFindCluster (clusterName : String) : GoError :=
  ⟨"Can't find cluster in policy: " ++ clusterName⟩

/-- `fmt.Errorf("error while update actual state: %s", err)`. -/
def storeFailure (err : GoError) : GoError :=
  ⟨"error while update actual state: " ++ err.msg⟩

/-- `fmt.Errorf("Errors while <kind> component '%s': %s", key, err)`. -/
def actionFailure (kind componentKey : String) (err : GoError) : GoError :=
  ⟨"Errors while " ++ kind ++ " component '" ++ componentKey ++ "': " ++ err.msg⟩

/-- The panic of dereferencing a nil pointer. -/
def nilDereference : String := "invalid memory address or nil pointer dereference"

/-- The panic of a failed type assertion. -/
def badConversion : String := "interface conversion"

/-- `CreateAction`: the action value carries its component key. -/
structure CreateAction where
  ComponentKey : String
  deriving DecidableEq, Repr

/-- `UpdateAction`: the action value carries its component key. -/
structure UpdateAction where
  ComponentKey : String
  deriving DecidableEq, Repr

/-- `DeleteAction`: the action value carries its component key. -/
structure DeleteAction where
  ComponentKey : String
  deriving DecidableEq, Repr

/-- `CreateAction.processDeployment`: the component is located in the desired
policy, the cluster is read from `DesiredPolicy.Clusters`, and the driver's
`Create` is invoked.  A key absent from the desired state, or a service absent
from the policy, is a nil dereference. -/
def CreateAction.processDeployment (a : CreateAction) (context : Context) : Step :=
  match context.DesiredState.ComponentInstanceMap a.ComponentKey with
  | none => .panicked nilDereference
  | some inst =>
    match context.DesiredPolicy.Services inst.Key.ServiceName with
    | none => .panicked nilDereference
    | some service =>
      match service.GetComponentsMap inst.Key.ComponentName with
      | none => .returned (context, none)
      | some component =>
        let context1 := context.log
          (.info ⟨inst.Key, component.Name, inst.CalculatedCodeParams⟩
            ("Deploying new component instance: " ++ inst.Key.GetKey))
        match component.Code with
        | none => .returned (context1, none)
        | some code =>
          match inst.CalculatedCodeParams.get "cluster" with
          | some (.str clusterName) =>
            let context2 := context1.record (.clusterLookup clusterName)
            match context.DesiredPolicy.Clusters clusterName with
            | none => .returned (context2, some (cantFindCluster clusterName))
            | some cluster =>
              let context3 := context2.record (.pluginLookup code.CodeType)
              match context.Plugins.GetDeployPlugin code.CodeType with
              | .error err => .returned (context3, some err)
              | .ok plugin =>
                let context4 := context3.record
                  (.driverCreate cluster a.ComponentKey inst.CalculatedCodeParams)
                match plugin.Create cluster a.ComponentKey inst.CalculatedCodeParams with
                | some err => .returned (context4, some err)
                | none => .returned (context4, none)
          | _ => .returned (context1, some (noClusterSpecified a.ComponentKey))

/-- `CreateAction.updateActualState`: `time.Now()` is read twice, once for each
argument of `UpdateTimes`; the instance is a pointer shared with the desired
state, so the new times show there too; the instance is stored in the actual
state before the store is called. -/
def CreateAction.updateActualState (a : CreateAction) (context : Context) : Step :=
  match context.DesiredState.ComponentInstanceMap a.ComponentKey with
  | none => .panicked nilDereference
  | some inst =>
    let inst1 := inst.UpdateTimes (context.Clock context.ClockReads)
      (context.Clock (context.ClockReads + 1))
    let context1 : Context := { context with
      ClockReads := context.ClockReads + 2
      DesiredState := context.DesiredState.set a.ComponentKey inst1
      ActualState := context.ActualState.set a.ComponentKey inst1
      Calls := context.Calls ++ [.storeCreate inst1] }
    match context.ActualStateUpdater.Create inst1 with
    | some err => .returned (context1, some (storeFailure err))
    | none => .returned (context1, none)

/-- `CreateAction.Apply`. -/
def CreateAction.Apply (a : CreateAction) (context : Context) : Step :=
  match a.processDeployment context with
  | .panicked why => .panicked why
  | .returned (context1, some err) =>
    .returned (context1.log (.error err), some (actionFailure "creating" a.ComponentKey err))
  | .returned (context1, none) => a.updateActualState context1

/-- `UpdateAction.processDeployment`: service and cluster are fetched from the
desired policy with `GetObject`; the type assertions on the fetched objects
panic on a nil or foreign object, the one on the cluster only when the
arguments of the driver call are evaluated. -/
def UpdateAction.processDeployment (a : UpdateAction) (context : Context) : Step :=
  match context.DesiredState.ComponentInstanceMap a.ComponentKey with
  | none => .panicked nilDereference
  | some inst =>
    match context.DesiredPolicy.GetObject ServiceObjectKind inst.Key.ServiceName
        inst.Key.Namespace with
    | .error err => .returned (context, some err)
    | .ok (some (.service service)) =>
      match service.GetComponentsMap inst.Key.ComponentName with
      | none => .returned (context, none)
      | some component =>
        let context1 := context.log
          (.info ⟨inst.Key, component.Name, inst.CalculatedCodeParams⟩
            ("Updating a running component instance: " ++ inst.GetKey))
        match component.Code with
        | none => .returned (context1, none)
        | some code =>
          match inst.CalculatedCodeParams.get LabelCluster with
          | some (.str clusterName) =>
            let context2 := context1.record (.clusterLookup clusterName)
            match context.DesiredPolicy.GetObject ClusterObjectKind clusterName SystemNS with
            | .error err => .returned (context2, some err)
            | .ok none => .returned (context2, some (cantFindCluster clusterName))
            | .ok (some clusterObj) =>
              let context3 := context2.record (.pluginLookup code.CodeType)
              match context.Plugins.GetDeployPlugin code.CodeType with
              | .error err => .returned (context3, some err)
              | .ok plugin =>
                match clusterObj with
                | .cluster cluster =>
                  let context4 := context3.record
                    (.driverUpdate cluster a.ComponentKey inst.CalculatedCodeParams)
                  match plugin.Update cluster a.ComponentKey inst.CalculatedCodeParams with
                  | some err => .returned (context4, some err)
                  | none => .returned (context4, none)
                | _ => .panicked badConversion
          | _ => .returned (context1, some (noClusterSpecified a.ComponentKey))
    | .ok _ => .panicked badConversion

/-- `UpdateAction.updateActualState`: the creation time of the record in the
actual state is read first, then `time.Now()` once; the desired-state instance
(a shared pointer) receives both and is stored in the actual state before the
store is called. -/
def UpdateAction.updateActualState (a : UpdateAction) (context : Context) : Step :=
  match context.ActualState.ComponentInstanceMap a.ComponentKey with
  | none => .panicked nilDereference
  | some previous =>
    match context.DesiredState.ComponentInstanceMap a.ComponentKey with
    | none => .panicked nilDereference
    | some inst =>
      let inst1 := inst.UpdateTimes previous.CreatedOn (context.Clock context.ClockReads)
      let context1 : Context := { context with
        ClockReads := context.ClockReads + 1
        DesiredState := context.DesiredState.set a.ComponentKey inst1
        ActualState := context.ActualState.set a.ComponentKey inst1
        Calls := context.Calls ++ [.storeUpdate inst1] }
      match context.ActualStateUpdater.Update inst1 with
      | some err => .returned (context1, some (storeFailure err))
      | none => .returned (context1, none)

/-- `UpdateAction.Apply`. -/
def UpdateAction.Apply (a : UpdateAction) (context : Context) : Step :=
  match a.processDeployment context with
  | .panicked why => .panicked why
  | .returned (context1, some err) =>
    .returned (context1.log (.error err), some (actionFailure "updating" a.ComponentKey err))
  | .returned (context1, none) => a.updateActualState context1

/-- `DeleteAction.processDeployment`: the instance is read from the actual state
and its component from the actual policy; the cluster is read from
`DesiredPolicy.Clusters`; the driver's `Destroy` is invoked. -/
def DeleteAction.processDeployment (a : DeleteAction) (context : Context) : Step :=
  match context.ActualState.ComponentInstanceMap a.ComponentKey with
  | none => .panicked nilDereference
  | some inst =>
    match context.ActualPolicy.Services inst.Key.ServiceName with
    | none => .panicked nilDereference
    | some service =>
      match service.GetComponentsMap inst.Key.ComponentName with
      | none => .returned (context, none)
      | some component =>
        let context1 := context.log
          (.info ⟨inst.Key, component.Name, inst.CalculatedCodeParams⟩
            ("Destructing a running component instance: " ++ inst.GetKey))
        match component.Code with
        | none => .returned (context1, none)
        | some code =>
          match inst.CalculatedCodeParams.get "cluster" with
          | some (.str clusterName) =>
            let context2 := context1.record (.clusterLookup clusterName)
            match context.DesiredPolicy.Clusters clusterName with
            | none => .returned (context2, some (cantFindCluster clusterName))
            | some cluster =>
              let context3 := context2.record (.pluginLookup code.CodeType)
              match context.Plugins.GetDeployPlugin code.CodeType with
              | .error err => .returned (context3, some err)
              | .ok plugin =>
                let context4 := context3.record
                  (.driverDestroy cluster a.ComponentKey inst.CalculatedCodeParams)
                match plugin.Destroy cluster a.ComponentKey inst.CalculatedCodeParams with
                | some err => .returned (context4, some err)
                | none => .returned (context4, none)
          | _ => .returned (context1, some (noClusterSpecified a.ComponentKey))

/-- `DeleteAction.updateActualState`: the key is deleted from the actual state,
then the store is called. -/
def DeleteAction.updateActualState (a : DeleteAction) (context : Context) : Step :=
  let context1 : Context := { context with
    ActualState := context.ActualState.delete a.ComponentKey
    Calls := context.Calls ++ [.storeDelete a.ComponentKey] }
  match context.ActualStateUpdater.Delete a.ComponentKey with
  | some err => .returned (context1, some (storeFailure err))
  | none => .returned (context1, none)

/-- `DeleteAction.Apply`. -/
def DeleteAction.Apply (a : DeleteAction) (context : Context) : Step :=
  match a.processDeployment context with
  | .panicked why => .panicked why
  | .returned (context1, some err) =>
    .returned (context1.log (.error err), some (actionFailure "deleting" a.ComponentKey err))
  | .returned (context1, none) => a.updateActualState context1

end component

namespace slinga

/-- A dependency record: user `UserID` requested `Service` with `Labels`.
`Enabled` is true unless the input file says otherwise. -/
structure Dependency where
  Enabled : Bool
  ID : String
  UserID : String
  Service : String
  Labels : List (String × String)
  Resolved : Bool
  ServiceKey : String
  deriving DecidableEq, Repr

/-- `GlobalDependencies`: dependencies by service (an absent service reads as
the nil slice) and by id (an absent id reads as nil). -/
structure GlobalDependencies where
  DependenciesByService : String → List Dependency
  DependenciesByID : String → Option Dependency

/-- `NewGlobalDependencies`: both maps empty. -/
def NewGlobalDependencies : GlobalDependencies :=
  ⟨fun _ => [], fun _ => none⟩

/-- `GlobalDependencies.appendDependency`: panics on an empty id (`len` of a
string is zero exactly when its character count is), otherwise appends to the
slice of the service and overwrites the entry of the id. -/
def GlobalDependencies.appendDependency (src : GlobalDependencies) (dependency : Dependency) :
    Outcome GlobalDependencies :=
  if dependency.ID.length ≤ 0 then
    .panicked "Empty dependency ID"
  else
    .returned
      { DependenciesByService := fun service =>
          if service = dependency.Service then
            src.DependenciesByService dependency.Service ++ [dependency]
          else src.DependenciesByService service
        DependenciesByID := fun id =>
          if id = dependency.ID then some dependency else src.DependenciesByID id }

/-- The inner loop of `LoadDependenciesFromDir` over the records `t` of one
file: every enabled record is appended. -/
def appendEnabled (result : GlobalDependencies) : List Dependency → Outcome GlobalDependencies
  | [] => .returned result
  | d :: rest =>
    if d.Enabled then
      match result.appendDependency d with
      | .panicked why => .panicked why
      | .returned result1 => appendEnabled result1 rest
    else appendEnabled result rest

/-- The outer loop of `LoadDependenciesFromDir` over the files. -/
def loadFiles (result : GlobalDependencies) : List (List Dependency) → Outcome GlobalDependencies
  | [] => .returned result
  | t :: rest =>
    match appendEnabled result t with
    | .panicked why => .panicked why
    | .returned result1 => loadFiles result1 rest

/-- `LoadDependenciesFromDir`.  Globbing, sorting and `loadDependenciesFromFile`
are external: the argument is the list of record lists loaded from the files,
in sorted file order. -/
def LoadDependenciesFromDir (loaded : List (List Dependency)) : Outcome GlobalDependencies :=
  loadFiles NewGlobalDependencies loaded

end slinga

/-! ## Concrete inputs -/

namespace lang

/-- The service object `main/service/web`. -/
def web : Base := ⟨"main", "service", "web"⟩

/-- A concrete policy over a one-object store, with the given resolver.  Its
lookup knows the kind `service` only, and answers nil without error for a
service it does not hold. -/
def samplePolicy (aclResolver : User → Option Base → Except GoError Privilege) :
    Policy (List Base) where
  store := [web]
  getObject := fun store kind locator _ =>
    if kind = "service" then
      .ok (store.find? (fun o => o.Kind == kind && o.Name == locator))
    else .error ⟨"kind not supported"⟩
  addObject := fun store obj => store ++ [obj]
  aclResolver := aclResolver

/-- The view held by user `alice` when the resolver grants viewing but not
managing. -/
def aliceView : PolicyView (List Base) :=
  ⟨samplePolicy (fun _ _ => .ok ⟨true, false⟩), ⟨"alice"⟩⟩

/-- The view held by user `alice` when the resolver grants everything. -/
def managerView : PolicyView (List Base) :=
  ⟨samplePolicy (fun _ _ => .ok ⟨true, true⟩), ⟨"alice"⟩⟩

/-- The contract object `main/contract/web-contract`. -/
def webContract : Base := ⟨"main", "contract", "web-contract"⟩

/-- The view held by user `alice` when the resolver grants nothing. -/
def refusedView : PolicyView (List Base) :=
  ⟨samplePolicy (fun _ _ => .ok ⟨false, false⟩), ⟨"alice"⟩⟩

end lang

namespace component

/-- Service `web` with its one code component `srv`, deployed by driver `helm`. -/
def webService : Service := ⟨"web", [⟨"srv", some ⟨"helm"⟩⟩]⟩

/-- Cluster `c1` as one policy defines it. -/
def clusterOld : Cluster := ⟨"c1", "kubernetes"⟩

/-- Cluster `c1` as another policy defines it. -/
def clusterNew : Cluster := ⟨"c1", "docker"⟩

/-- A policy holding the given services and clusters; `GetObject` answers from
the same lists, and nil for a name it does not hold. -/
def samplePolicy (services : List Service) (clusters : List Cluster) : Policy where
  Services := fun name => services.find? (fun s => s.Name == name)
  Clusters := fun name => clusters.find? (fun c => c.Name == name)
  GetObject := fun kind locator _ =>
    if kind = ServiceObjectKind then
      .ok ((services.find? (fun s => s.Name == locator)).map PolicyObject.service)
    else if kind = ClusterObjectKind then
      .ok ((clusters.find? (fun c => c.Name == locator)).map PolicyObject.cluster)
    else .error ⟨"unknown kind"⟩

/-- The instance of code component `srv` of service `web`, bound to cluster `c1`. -/
def srvInstance (createdOn updatedOn : Time) : ComponentInstance :=
  ⟨⟨"main", "web", "srv", "main#web#srv"⟩, ["d1"], [("cluster", .str "c1")], [],
    createdOn, updatedOn⟩

/-- The service-level instance of service `web`: `root` is not one of its
components, and it carries no code params. -/
def rootInstance (createdOn updatedOn : Time) : ComponentInstance :=
  ⟨⟨"main", "web", "root", "main#web#root"⟩, ["d1"], [], [], createdOn, updatedOn⟩

/-- A state holding the given instances under their keys. -/
def sampleState (instances : List ComponentInstance) : State :=
  ⟨fun key => instances.find? (fun i => i.Key.key == key)⟩

/-- A driver whose three operations answer `answer`. -/
def sampleDriver (answer : Option GoError) : DeployPlugin :=
  ⟨fun _ _ _ => answer, fun _ _ _ => answer, fun _ _ _ => answer⟩

/-- A registry that knows driver `helm` only. -/
def sampleRegistry (driver : DeployPlugin) : PluginRegistry :=
  ⟨fun codeType => if codeType = "helm" then .ok driver else .error ⟨"plugin not registered"⟩⟩

/-- A store whose three operations answer `answer`. -/
def sampleStore (answer : Option GoError) : Updater :=
  ⟨fun _ => answer, fun _ => answer, fun _ => answer⟩

/-- A context with an empty event log, no recorded calls and an unread clock. -/
def sampleContext (desiredPolicy actualPolicy : Policy) (desired actual : State)
    (store : Updater) (driver : DeployPlugin) (clock : Nat → Time) : Context where
  DesiredPolicy := desiredPolicy
  ActualPolicy := actualPolicy
  DesiredState := desired
  ActualState := actual
  ActualStateUpdater := store
  Plugins := sampleRegistry driver
  EventLog := []
  Calls := []
  Clock := clock
  ClockReads := 0

/-- The policy with service `web` and the old definition of cluster `c1`. -/
def policyOld : Policy := samplePolicy [webService] [clusterOld]

/-- The policy with service `web` and the new definition of cluster `c1`. -/
def policyNew : Policy := samplePolicy [webService] [clusterNew]

/-- The policy with service `web` and no cluster at all. -/
def policyNoCluster : Policy := samplePolicy [webService] []

/-- Updating `srv`: the record in the actual state was written at time 200, the
clock now reads 150. -/
def staleClockContext : Context :=
  sampleContext policyOld policyOld (sampleState [srvInstance 0 0])
    (sampleState [srvInstance 100 200]) (sampleStore none) (sampleDriver none) (fun _ => 150)

/-- Updating `srv`: the record in the actual state was written at time 200, the
clock now reads 300. -/
def laterClockContext : Context :=
  sampleContext policyOld policyOld (sampleState [srvInstance 0 0])
    (sampleState [srvInstance 100 200]) (sampleStore none) (sampleDriver none) (fun _ => 300)

/-- Creating `srv` with a clock that advances by one unit at every reading,
starting at 1000. -/
def tickingContext : Context :=
  sampleContext policyOld policyOld (sampleState [srvInstance 0 0]) (sampleState [])
    (sampleStore none) (sampleDriver none) (fun n => 1000 + n)

/-- Deleting `srv` when only the actual policy defines cluster `c1`. -/
def clusterOnlyInActualContext : Context :=
  sampleContext policyNoCluster policyOld (sampleState []) (sampleState [srvInstance 1 2])
    (sampleStore none) (sampleDriver none) (fun _ => 0)

/-- Deleting `srv` when the desired policy defines cluster `c1` anew. -/
def clusterRedefinedContext : Context :=
  sampleContext policyNew policyOld (sampleState []) (sampleState [srvInstance 1 2])
    (sampleStore none) (sampleDriver none) (fun _ => 0)

/-- Creating the service-level instance of `web` with a working store. -/
def rootCreateContext : Context :=
  sampleContext policyOld policyOld (sampleState [rootInstance 0 0]) (sampleState [])
    (sampleStore none) (sampleDriver none) (fun _ => 7)

/-- Deleting the service-level instance of `web` with a working store. -/
def rootDeleteContext : Context :=
  sampleContext policyOld policyOld (sampleState []) (sampleState [rootInstance 1 2])
    (sampleStore none) (sampleDriver none) (fun _ => 7)

end component

namespace slinga

/-- A record that is switched off and has no id. -/
def disabledWithoutId : Dependency := ⟨false, "", "alice", "web", [], false, ""⟩

/-- An enabled record with id `d1`. -/
def aliceWantsWeb : Dependency := ⟨true, "d1", "alice", "web", [], false, ""⟩

/-- An enabled record without id. -/
def enabledWithoutId : Dependency := ⟨true, "", "bob", "web", [], false, ""⟩

/-- A record that is switched off and has id `d9`. -/
def disabledWithId : Dependency := ⟨false, "d9", "carol", "web", [], false, ""⟩

/-- The structure `result` holds exactly the enabled records of `seen`: the
slice of a service is the enabled records of that service in the order of
`seen`, and the entry of an id is the last enabled record bearing it. -/
def GlobalDependencies.Indexes (result : GlobalDependencies) (seen : List Dependency) : Prop :=
  (∀ service, result.DependenciesByService service =
    seen.filter (fun d => d.Enabled && d.Service == service)) ∧
  (∀ id, result.DependenciesByID id =
    (seen.filter (fun d => d.Enabled && d.ID == id)).getLast?)

end slinga

namespace component

/-- Whether a recorded call is a mutation of the state store. -/
def Call.isStore : Call → Bool
  | .storeCreate _ => true
  | .storeUpdate _ => true
  | .storeDelete _ => true
  | _ => false

/-- The context `context1` comes from `context` by writing to the event log
and by calls none of which is a mutation of the state store; nothing else
differs. -/
def Context.DeployedFrom (context1 context : Context) : Prop :=
  ∃ (entries : List LogEntry) (calls : List Call),
    context1 = { context with
      EventLog := context.EventLog ++ entries, Calls := context.Calls ++ calls } ∧
    ∀ call ∈ calls, call.isStore = false

end component

/-! ## Properties of the policy view -/

namespace lang

/-- C1. `PolicyView.AddObject` is gated by the `manage` privilege: a resolver
error is returned as it is and the policy is left as it was; a resolver answer
with `manage = false` yields the denial error and the policy is left as it was;
a resolver answer with `manage = true` adds the object with `Policy.AddObject`
and returns nil; hence a nil result implies the resolver answered
`manage = true`. -/
theorem AddObject_requires_manage {Store : Type} (policyView : PolicyView Store) (obj : Base) :
    (∀ err, policyView.Policy.aclResolver policyView.User (some obj) = .error err →
      policyView.AddObject obj = (policyView, some err)) ∧
    (∀ privilege, policyView.Policy.aclResolver policyView.User (some obj) = .ok privilege →
      privilege.Manage = false →
      policyView.AddObject obj = (policyView, some (denied "manage" policyView.User obj))) ∧
    (∀ privilege, policyView.Policy.aclResolver policyView.User (some obj) = .ok privilege →
      privilege.Manage = true →
      policyView.AddObject obj =
        (⟨policyView.Policy.AddObject obj, policyView.User⟩, none)) ∧
    ((policyView.AddObject obj).2 = none →
      ∃ privilege, policyView.Policy.aclResolver policyView.User (some obj) = .ok privilege ∧
        privilege.Manage = true) := by
  refine ⟨?_, ?_, ?_, ?_⟩
  · intro err h
    simp [PolicyView.AddObject, h]
  · intro privilege h hm
    simp [PolicyView.AddObject, h, hm]
  · intro privilege h hm
    simp [PolicyView.AddObject, h, hm]
  · intro h
    unfold PolicyView.AddObject at h
    split at h
    · simp at h
    · rename_i privilege hp
      cases hm : privilege.Manage
      · simp [hm] at h
      · exact ⟨privilege, hp, hm⟩

/-- C1, at concrete inputs: with `manage = true` the contract is added to the
store and nil is returned; with `manage = false` the call is refused and the
view is left as it was. -/
theorem AddObject_requires_manage_witness :
    managerView.AddObject webContract =
      (⟨managerView.Policy.AddObject webContract, managerView.User⟩, none) ∧
    (managerView.Policy.AddObject webContract).store = [web, webContract] ∧
    aliceView.AddObject webContract =
      (aliceView, some (denied "manage" aliceView.User webContract)) :=
  ⟨(AddObject_requires_manage managerView webContract).2.2.1 ⟨true, true⟩ rfl rfl, rfl,
    (AddObject_requires_manage aliceView webContract).2.1 ⟨true, false⟩ rfl rfl⟩

/-- `PolicyView.ManageObject`, case by case. It returns an object exactly when
`Policy.GetObject` found that very object and the resolver answered
`manage = true` for it; a lookup error and a resolver error are returned as
they are, and `manage = false` for a found object yields the denial error, in
each case without an object. When the lookup answers nil without error, the
call returns nil without error if the resolver grants managing, and panics if
it does not. -/
theorem ManageObject_requires_manage {Store : Type} (policyView : PolicyView Store)
    (kind locator currentNs : String) :
    (∀ obj, policyView.ManageObject kind locator currentNs = .returned (.ok (some obj)) ↔
      (policyView.Policy.GetObject kind locator currentNs = .ok (some obj) ∧
        ∃ privilege, policyView.Policy.aclResolver policyView.User (some obj) = .ok privilege ∧
          privilege.Manage = true)) ∧
    (∀ err, policyView.Policy.GetObject kind locator currentNs = .error err →
      policyView.ManageObject kind locator currentNs = .returned (.error err)) ∧
    (∀ obj err, policyView.Policy.GetObject kind locator currentNs = .ok obj →
      policyView.Policy.aclResolver policyView.User obj = .error err →
      policyView.ManageObject kind locator currentNs = .returned (.error err)) ∧
    (∀ obj privilege, policyView.Policy.GetObject kind locator currentNs = .ok (some obj) →
      policyView.Policy.aclResolver policyView.User (some obj) = .ok privilege →
      privilege.Manage = false →
      policyView.ManageObject kind locator currentNs =
        .returned (.error (denied "manage" policyView.User obj))) ∧
    (∀ privilege, policyView.Policy.GetObject kind locator currentNs = .ok none →
      policyView.Policy.aclResolver policyView.User none = .ok privilege →
      (privilege.Manage = true →
        policyView.ManageObject kind locator currentNs = .returned (.ok none)) ∧
      (privilege.Manage = false →
        policyView.ManageObject kind locator currentNs = .panicked nilObject)) := by
  refine ⟨?_, ?_, ?_, ?_, ?_⟩
  · intro obj
    unfold PolicyView.ManageObject
    cases hg : policyView.Policy.GetObject kind locator currentNs with
    | error e => simp
    | ok found =>
      cases hr : policyView.Policy.aclResolver policyView.User found with
      | error e =>
        simp only [hr]
        constructor
        · intro h
          simp at h
        · rintro ⟨hfo, privilege, hp, -⟩
          cases hfo
          rw [hr] at hp
          cases hp
      | ok privilege =>
        cases hm : privilege.Manage
        · simp only [hr, hm]
          constructor
          · intro h
            cases found <;> simp at h
          · rintro ⟨hfo, p, hp, hpm⟩
            cases hfo
            rw [hr] at hp
            cases hp
            rw [hm] at hpm
            cases hpm
        · simp only [hr, hm]
          constructor
          · intro h
            simp at h
            cases h
            exact ⟨rfl, privilege, hr, hm⟩
          · rintro ⟨hfo, -⟩
            cases hfo
            simp
  · intro err h
    simp [PolicyView.ManageObject, h]
  · intro obj err h hr
    simp [PolicyView.ManageObject, h, hr]
  · intro obj privilege h hr hm
    simp [PolicyView.ManageObject, h, hr, hm]
  · intro privilege h hr
    constructor
    · intro hm
      simp [PolicyView.ManageObject, h, hr, hm]
    · intro hm
      simp [PolicyView.ManageObject, h, hr, hm]

/-- `PolicyView.ManageObject` at concrete inputs: the manager obtains the
service `web`, a user without the privilege obtains the denial, and a lookup
error is returned as it is. -/
theorem ManageObject_requires_manage_witness :
    managerView.ManageObject "service" "web" "main" = .returned (.ok (some web)) ∧
    refusedView.ManageObject "service" "web" "main" =
      .returned (.error (denied "manage" refusedView.User web)) ∧
    managerView.ManageObject "cluster" "c1" "system" =
      .returned (.error ⟨"kind not supported"⟩) :=
  ⟨((ManageObject_requires_manage managerView "service" "web" "main").1 web).mpr
      ⟨rfl, ⟨true, true⟩, rfl, rfl⟩,
    (ManageObject_requires_manage refusedView "service" "web" "main").2.2.2.1 web
      ⟨false, false⟩ rfl rfl rfl,
    (ManageObject_requires_manage managerView "cluster" "c1" "system").2.1
      ⟨"kind not supported"⟩ rfl⟩

/-- C2: the code at two inputs. Service `db` is not in the policy and the
lookup answers nil without error. `ManageObject` has no nil check: for a user
the resolver grants managing it returns neither an object nor an error, and for
a user the resolver refuses it panics while formatting the denial. -/
theorem ManageObject_returns_nothing_for_absent_object :
    (managerView.Policy.GetObject "service" "db" "main" = .ok none ∧
      managerView.Policy.aclResolver managerView.User none = .ok ⟨true, true⟩ ∧
      managerView.ManageObject "service" "db" "main" = .returned (.ok none)) ∧
    (refusedView.Policy.GetObject "service" "db" "main" = .ok none ∧
      refusedView.Policy.aclResolver refusedView.User none = .ok ⟨false, false⟩ ∧
      refusedView.ManageObject "service" "db" "main" = .panicked nilObject) :=
  ⟨⟨rfl, rfl, rfl⟩, ⟨rfl, rfl, rfl⟩⟩

/-- C3. For an object found by `Policy.GetObject`, `PolicyView.ViewObject`
returns it exactly when the resolver answers `view = true`; the `manage` flag
plays no part, and with `view = true` and `manage = false` the object can be
viewed while `ManageObject` on the same arguments fails. -/
theorem ViewObject_requires_view_only {Store : Type} (policyView : PolicyView Store)
    (kind locator currentNs : String) (obj : Base)
    (found : policyView.Policy.GetObject kind locator currentNs = .ok (some obj)) :
    (policyView.ViewObject kind locator currentNs = .returned (.ok (some obj)) ↔
      ∃ privilege, policyView.Policy.aclResolver policyView.User (some obj) = .ok privilege ∧
        privilege.View = true) ∧
    (∀ manage,
      policyView.Policy.aclResolver policyView.User (some obj) = .ok ⟨true, manage⟩ →
      policyView.ViewObject kind locator currentNs = .returned (.ok (some obj))) ∧
    (policyView.Policy.aclResolver policyView.User (some obj) = .ok ⟨true, false⟩ →
      policyView.ViewObject kind locator currentNs = .returned (.ok (some obj)) ∧
      policyView.ManageObject kind locator currentNs =
        .returned (.error (denied "manage" policyView.User obj))) := by
  refine ⟨?_, ?_, ?_⟩
  · unfold PolicyView.ViewObject
    simp only [found]
    cases hr : policyView.Policy.aclResolver policyView.User (some obj) with
    | error e => simp
    | ok privilege =>
      cases hv : privilege.View
      · constructor
        · intro h
          simp [hv] at h
        · rintro ⟨p, hp, hpv⟩
          cases hp
          rw [hv] at hpv
          cases hpv
      · constructor
        · intro _
          exact ⟨privilege, rfl, hv⟩
        · intro _
          simp [hv]
  · intro manage hr
    simp [PolicyView.ViewObject, found, hr]
  · intro hr
    constructor
    · simp [PolicyView.ViewObject, found, hr]
    · simp [PolicyView.ManageObject, found, hr]

/-- C3, at a concrete input: user `alice`, granted viewing but not managing,
views the service `web` of the sample policy and is refused managing it. -/
theorem ViewObject_requires_view_only_witness :
    aliceView.Policy.GetObject "service" "web" "main" = .ok (some web) ∧
    aliceView.ViewObject "service" "web" "main" = .returned (.ok (some web)) ∧
    aliceView.ManageObject "service" "web" "main" =
      .returned (.error (denied "manage" ⟨"alice"⟩ web)) :=
  have found : aliceView.Policy.GetObject "service" "web" "main" = .ok (some web) := by rfl
  ⟨found, (ViewObject_requires_view_only aliceView "service" "web" "main" web found).2.2 rfl⟩

end lang

/-! ## Properties of the component actions -/

namespace component

/-- The deployment step of a create action changes nothing of the context but
the event log and the record of calls. -/
theorem CreateAction_processDeployment_frame (a : CreateAction) (context context1 : Context)
    (err : Option GoError) (h : a.processDeployment context = .returned (context1, err)) :
    context1 = { context with EventLog := context1.EventLog, Calls := context1.Calls } := by
  unfold CreateAction.processDeployment at h
  repeat' split at h
  all_goals first | (cases h; rfl) | (simp at h)

/-- The deployment step of an update action changes nothing of the context but
the event log and the record of calls. -/
theorem UpdateAction_processDeployment_frame (a : UpdateAction) (context context1 : Context)
    (err : Option GoError) (h : a.processDeployment context = .returned (context1, err)) :
    context1 = { context with EventLog := context1.EventLog, Calls := context1.Calls } := by
  unfold UpdateAction.processDeployment at h
  repeat' split at h
  all_goals first | (cases h; rfl) | (simp at h)

/-- A successful `Apply` of an update action is a deployment step without error
followed by a store update without error. -/
theorem UpdateAction_Apply_success (a : UpdateAction) (context context2 : Context)
    (h : a.Apply context = .returned (context2, none)) :
    ∃ context1, a.processDeployment context = .returned (context1, none) ∧
      a.updateActualState context1 = .returned (context2, none) := by
  unfold UpdateAction.Apply at h
  split at h
  · cases h
  · cases h
  · rename_i context1 hd
    exact ⟨context1, hd, h⟩

/-- A successful `Apply` of a create action is a deployment step without error
followed by a store create without error. -/
theorem CreateAction_Apply_success (a : CreateAction) (context context2 : Context)
    (h : a.Apply context = .returned (context2, none)) :
    ∃ context1, a.processDeployment context = .returned (context1, none) ∧
      a.updateActualState context1 = .returned (context2, none) := by
  unfold CreateAction.Apply at h
  split at h
  · cases h
  · cases h
  · rename_i context1 hd
    exact ⟨context1, hd, h⟩

/-- C5, as stated, fails: the update of `srv` succeeds with a clock reading of
150 while the record it replaces was last updated at 200, so the new update
time is not greater than the old one. -/
theorem update_time_not_later :
    ∃ context1 previous current,
      UpdateAction.Apply ⟨"main#web#srv"⟩ staleClockContext = .returned (context1, none) ∧
      staleClockContext.ActualState.ComponentInstanceMap "main#web#srv" = some previous ∧
      staleClockContext.DesiredState.ComponentInstanceMap "main#web#srv" =
        some (srvInstance 0 0) ∧
      context1.ActualState.ComponentInstanceMap "main#web#srv" = some current ∧
      ¬ (previous.UpdatedOn < current.UpdatedOn) :=
  ⟨_, srvInstance 100 200, srvInstance 100 150, rfl, rfl, rfl, rfl, by decide⟩

/-- C5, amended. After a successful `UpdateAction.Apply` on a key present in
both states, the actual state maps the key to the desired-state instance with
the creation time of the replaced record and, as update time, the clock reading
taken by the action; so the update time exceeds the old one exactly when that
reading is later than it. -/
theorem UpdateAction_keeps_created_sets_updated (a : UpdateAction)
    (context context2 : Context) (previous desired : ComponentInstance)
    (hactual : context.ActualState.ComponentInstanceMap a.ComponentKey = some previous)
    (hdesired : context.DesiredState.ComponentInstanceMap a.ComponentKey = some desired)
    (hsuccess : a.Apply context = .returned (context2, none)) :
    ∃ current, context2.ActualState.ComponentInstanceMap a.ComponentKey = some current ∧
      current = { desired with
        CreatedOn := previous.CreatedOn, UpdatedOn := context.Clock context.ClockReads } ∧
      current.CreatedOn = previous.CreatedOn ∧
      current.UpdatedOn = context.Clock context.ClockReads ∧
      (previous.UpdatedOn < current.UpdatedOn ↔
        previous.UpdatedOn < context.Clock context.ClockReads) := by
  obtain ⟨context1, hd, hu⟩ := UpdateAction_Apply_success a context context2 hsuccess
  have hf := UpdateAction_processDeployment_frame a context context1 none hd
  have hA : context1.ActualState = context.ActualState := by rw [hf]
  have hD : context1.DesiredState = context.DesiredState := by rw [hf]
  have hC : context1.Clock = context.Clock := by rw [hf]
  have hR : context1.ClockReads = context.ClockReads := by rw [hf]
  unfold UpdateAction.updateActualState at hu
  rw [hA, hD, hC, hR, hactual, hdesired] at hu
  simp only at hu
  split at hu
  · cases hu
  · cases hu
    refine ⟨_, ?_, rfl, rfl, rfl, Iff.rfl⟩
    simp [State.set, ComponentInstance.UpdateTimes]

/-- C5, amended, at a concrete input: `srv` is updated at clock reading 300; its
record keeps creation time 100 and its update time moves from 200 to 300. -/
theorem UpdateAction_keeps_created_sets_updated_witness :
    ∃ context2,
      UpdateAction.Apply ⟨"main#web#srv"⟩ laterClockContext = .returned (context2, none) ∧
      ∃ current,
        context2.ActualState.ComponentInstanceMap "main#web#srv" = some current ∧
        current = srvInstance 100 300 ∧
        current.CreatedOn = 100 ∧
        current.UpdatedOn = 300 ∧
        ((200 : Time) < current.UpdatedOn ↔ (200 : Time) < 300) :=
  ⟨_, rfl, UpdateAction_keeps_created_sets_updated ⟨"main#web#srv"⟩ laterClockContext _
    (srvInstance 100 200) (srvInstance 0 0) rfl rfl rfl⟩

/-- C6, as stated, fails: `srv` is created with a clock that advances between
its two readings, and the stored record has creation time 1000 and update time
1001. -/
theorem create_times_differ :
    ∃ context1 current,
      CreateAction.Apply ⟨"main#web#srv"⟩ tickingContext = .returned (context1, none) ∧
      tickingContext.DesiredState.ComponentInstanceMap "main#web#srv" =
        some (srvInstance 0 0) ∧
      context1.ActualState.ComponentInstanceMap "main#web#srv" = some current ∧
      current.CreatedOn ≠ current.UpdatedOn :=
  ⟨_, srvInstance 1000 1001, rfl, rfl, rfl, by decide⟩

/-- C6, amended. After a successful `CreateAction.Apply` on a key present in the
desired state, the actual state maps the key to the desired-state instance,
which now carries as creation time and as update time the two consecutive clock
readings taken by the action (the desired state shows the same record); the two
times are equal exactly when the two readings are. -/
theorem CreateAction_stores_instance_with_two_readings (a : CreateAction)
    (context context2 : Context) (desired : ComponentInstance)
    (hdesired : context.DesiredState.ComponentInstanceMap a.ComponentKey = some desired)
    (hsuccess : a.Apply context = .returned (context2, none)) :
    ∃ current, context2.ActualState.ComponentInstanceMap a.ComponentKey = some current ∧
      context2.DesiredState.ComponentInstanceMap a.ComponentKey = some current ∧
      current = { desired with
        CreatedOn := context.Clock context.ClockReads,
        UpdatedOn := context.Clock (context.ClockReads + 1) } ∧
      (current.CreatedOn = current.UpdatedOn ↔
        context.Clock context.ClockReads = context.Clock (context.ClockReads + 1)) := by
  obtain ⟨context1, hd, hu⟩ := CreateAction_Apply_success a context context2 hsuccess
  have hf := CreateAction_processDeployment_frame a context context1 none hd
  have hD : context1.DesiredState = context.DesiredState := by rw [hf]
  have hC : context1.Clock = context.Clock := by rw [hf]
  have hR : context1.ClockReads = context.ClockReads := by rw [hf]
  unfold CreateAction.updateActualState at hu
  rw [hD, hC, hR, hdesired] at hu
  simp only at hu
  split at hu
  · cases hu
  · cases hu
    refine ⟨_, ?_, ?_, rfl, Iff.rfl⟩
    · simp [State.set, ComponentInstance.UpdateTimes]
    · simp [State.set, ComponentInstance.UpdateTimes]

/-- C6, amended, at a concrete input: `srv` is created with a clock reading 1000
and then 1001; the stored record carries these two times. -/
theorem CreateAction_stores_instance_with_two_readings_witness :
    ∃ context2,
      CreateAction.Apply ⟨"main#web#srv"⟩ tickingContext = .returned (context2, none) ∧
      ∃ current,
        context2.ActualState.ComponentInstanceMap "main#web#srv" = some current ∧
        context2.DesiredState.ComponentInstanceMap "main#web#srv" = some current ∧
        current = srvInstance 1000 1001 ∧
        (current.CreatedOn = current.UpdatedOn ↔ (1000 : Time) = 1001) :=
  ⟨_, rfl, CreateAction_stores_instance_with_two_readings ⟨"main#web#srv"⟩ tickingContext _
    (srvInstance 0 0) rfl rfl⟩

/-- C7: the code at two inputs. Deleting `srv` when only the actual policy
defines its cluster `c1` fails with the cluster-not-found error and never
reaches the driver; deleting it when the desired policy defines `c1` anew hands
the driver the desired policy's cluster, not the actual policy's. -/
theorem DeleteAction_takes_cluster_from_desired_policy :
    (clusterOnlyInActualContext.ActualPolicy.Clusters "c1" = some clusterOld ∧
      clusterOnlyInActualContext.DesiredPolicy.Clusters "c1" = none ∧
      ∃ context1,
        DeleteAction.Apply ⟨"main#web#srv"⟩ clusterOnlyInActualContext =
          .returned (context1,
            some ⟨"Errors while deleting component 'main#web#srv': Can't find cluster in policy: c1"⟩) ∧
        context1.Calls = [.clusterLookup "c1"]) ∧
    (clusterRedefinedContext.ActualPolicy.Clusters "c1" = some clusterOld ∧
      clusterRedefinedContext.DesiredPolicy.Clusters "c1" = some clusterNew ∧
      clusterOld ≠ clusterNew ∧
      ∃ context1,
        DeleteAction.Apply ⟨"main#web#srv"⟩ clusterRedefinedContext =
          .returned (context1, none) ∧
        context1.Calls = [.clusterLookup "c1", .pluginLookup "helm",
          .driverDestroy clusterNew "main#web#srv" [("cluster", .str "c1")],
          .storeDelete "main#web#srv"]) :=
  ⟨⟨rfl, rfl, _, rfl, rfl⟩, ⟨rfl, rfl, by decide, _, rfl, rfl⟩⟩

/-- A service none of whose components bears the name has no entry for it in
its components map. -/
theorem Service.GetComponentsMap_absent (service : Service) (name : String)
    (h : ∀ c ∈ service.Components, c.Name ≠ name) :
    service.GetComponentsMap name = none := by
  unfold Service.GetComponentsMap
  rw [List.find?_eq_none]
  intro c hc
  have := h c (List.mem_reverse.mp hc)
  simpa using this

/-- C9. For a service-level node (an instance whose component name is not among
the components of its service) the deployment step of `CreateAction` and of
`DeleteAction` returns nil and leaves the context as it was: no event is
logged, no cluster or driver is looked up, no driver is invoked, whatever the
code params. `Apply` is then the store step alone: create writes the instance
into the actual state and calls the store's `Create`, delete removes the key
from the actual state and calls the store's `Delete`. -/
theorem service_level_node_skips_deployment :
    (∀ (a : CreateAction) (context : Context) (inst : ComponentInstance) (service : Service),
      context.DesiredState.ComponentInstanceMap a.ComponentKey = some inst →
      context.DesiredPolicy.Services inst.Key.ServiceName = some service →
      (∀ c ∈ service.Components, c.Name ≠ inst.Key.ComponentName) →
      a.processDeployment context = .returned (context, none) ∧
      a.Apply context = a.updateActualState context ∧
      ∃ context1 err, a.Apply context = .returned (context1, err) ∧
        context1.EventLog = context.EventLog ∧
        context1.Calls = context.Calls ++
          [.storeCreate (inst.UpdateTimes (context.Clock context.ClockReads)
            (context.Clock (context.ClockReads + 1)))] ∧
        context1.ActualState.ComponentInstanceMap a.ComponentKey =
          some (inst.UpdateTimes (context.Clock context.ClockReads)
            (context.Clock (context.ClockReads + 1)))) ∧
    (∀ (a : DeleteAction) (context : Context) (inst : ComponentInstance) (service : Service),
      context.ActualState.ComponentInstanceMap a.ComponentKey = some inst →
      context.ActualPolicy.Services inst.Key.ServiceName = some service →
      (∀ c ∈ service.Components, c.Name ≠ inst.Key.ComponentName) →
      a.processDeployment context = .returned (context, none) ∧
      a.Apply context = a.updateActualState context ∧
      ∃ context1 err, a.Apply context = .returned (context1, err) ∧
        context1.EventLog = context.EventLog ∧
        context1.Calls = context.Calls ++ [.storeDelete a.ComponentKey] ∧
        context1.ActualState.ComponentInstanceMap a.ComponentKey = none) := by
  constructor
  · intro a context inst service hinst hservice habsent
    have hd : a.processDeployment context = .returned (context, none) := by
      unfold CreateAction.processDeployment
      simp only [hinst, hservice, Service.GetComponentsMap_absent service _ habsent]
    refine ⟨hd, ?_, ?_⟩
    · unfold CreateAction.Apply
      simp only [hd]
    · unfold CreateAction.Apply
      simp only [hd]
      unfold CreateAction.updateActualState
      simp only [hinst]
      split
      · exact ⟨_, _, rfl, rfl, rfl, by simp [State.set]⟩
      · exact ⟨_, _, rfl, rfl, rfl, by simp [State.set]⟩
  · intro a context inst service hinst hservice habsent
    have hd : a.processDeployment context = .returned (context, none) := by
      unfold DeleteAction.processDeployment
      simp only [hinst, hservice, Service.GetComponentsMap_absent service _ habsent]
    refine ⟨hd, ?_, ?_⟩
    · unfold DeleteAction.Apply
      simp only [hd]
    · unfold DeleteAction.Apply
      simp only [hd]
      unfold DeleteAction.updateActualState
      split
      · exact ⟨_, _, rfl, rfl, rfl, by simp [State.delete]⟩
      · exact ⟨_, _, rfl, rfl, rfl, by simp [State.delete]⟩

/-- C9, at concrete inputs: the service-level instance `root` of service `web`,
which has no `cluster` param, is created and deleted with the deployment step
leaving the context untouched. -/
theorem service_level_node_skips_deployment_witness :
    CreateAction.processDeployment ⟨"main#web#root"⟩ rootCreateContext =
      .returned (rootCreateContext, none) ∧
    DeleteAction.processDeployment ⟨"main#web#root"⟩ rootDeleteContext =
      .returned (rootDeleteContext, none) :=
  ⟨(service_level_node_skips_deployment.1 ⟨"main#web#root"⟩ rootCreateContext
      (rootInstance 0 0) webService rfl rfl (by decide)).1,
    (service_level_node_skips_deployment.2 ⟨"main#web#root"⟩ rootDeleteContext
      (rootInstance 1 2) webService rfl rfl (by decide)).1⟩

end component

/-! ## Properties of dependency loading -/

namespace slinga

/-- An id has length zero exactly when it is the empty string. -/
theorem length_le_zero_iff (id : String) : id.length ≤ 0 ↔ id = "" := by
  constructor
  · intro h
    have h0 : id.data.length = 0 := Nat.le_zero.mp h
    have hd : id.data = [] := List.length_eq_zero.mp h0
    cases id
    simp_all
  · intro h
    subst h
    decide

/-- Appending a dependency with a non-empty id returns. -/
theorem appendDependency_returns (src : GlobalDependencies) (d : Dependency) (h : d.ID ≠ "") :
    ∃ result, src.appendDependency d = .returned result := by
  unfold GlobalDependencies.appendDependency
  rw [if_neg (fun hl => h ((length_le_zero_iff d.ID).mp hl))]
  exact ⟨_, rfl⟩

/-- Appending a dependency with an empty id panics. -/
theorem appendDependency_panics (src : GlobalDependencies) (d : Dependency) (h : d.ID = "") :
    src.appendDependency d = .panicked "Empty dependency ID" := by
  unfold GlobalDependencies.appendDependency
  rw [if_pos ((length_le_zero_iff d.ID).mpr h)]

/-- The loop over the records of one file panics when an enabled record has an
empty id. -/
theorem appendEnabled_panics (t : List Dependency) :
    ∀ result : GlobalDependencies, (∃ d ∈ t, d.Enabled = true ∧ d.ID = "") →
      ∃ why, appendEnabled result t = .panicked why := by
  induction t with
  | nil =>
    intro result h
    obtain ⟨d, hd, -⟩ := h
    cases hd
  | cons d rest ih =>
    intro result h
    unfold appendEnabled
    by_cases he : d.Enabled = true
    · simp only [he, if_true]
      by_cases hid : d.ID = ""
      · rw [appendDependency_panics result d hid]
        exact ⟨_, rfl⟩
      · obtain ⟨result1, hr⟩ := appendDependency_returns result d hid
        rw [hr]
        apply ih
        obtain ⟨x, hx, hxe, hxi⟩ := h
        rcases List.mem_cons.mp hx with rfl | hx
        · exact absurd hxi hid
        · exact ⟨x, hx, hxe, hxi⟩
    · simp only [he]
      apply ih
      obtain ⟨x, hx, hxe, hxi⟩ := h
      rcases List.mem_cons.mp hx with rfl | hx
      · exact absurd hxe he
      · exact ⟨x, hx, hxe, hxi⟩

/-- The loop over the records of one file returns when every enabled record has
a non-empty id. -/
theorem appendEnabled_returns (t : List Dependency) :
    ∀ result : GlobalDependencies, (∀ d ∈ t, d.Enabled = true → d.ID ≠ "") →
      ∃ result1, appendEnabled result t = .returned result1 := by
  induction t with
  | nil =>
    intro result _
    exact ⟨result, rfl⟩
  | cons d rest ih =>
    intro result h
    unfold appendEnabled
    by_cases he : d.Enabled = true
    · simp only [he, if_true]
      obtain ⟨result1, hr⟩ :=
        appendDependency_returns result d (h d (List.mem_cons_self _ _) he)
      rw [hr]
      exact ih result1 (fun x hx => h x (List.mem_cons_of_mem _ hx))
    · simp only [he]
      exact ih result (fun x hx => h x (List.mem_cons_of_mem _ hx))

/-- The loop over the files panics when an enabled record of some file has an
empty id. -/
theorem loadFiles_panics (loaded : List (List Dependency)) :
    ∀ result : GlobalDependencies,
      (∃ t ∈ loaded, ∃ d ∈ t, d.Enabled = true ∧ d.ID = "") →
      ∃ why, loadFiles result loaded = .panicked why := by
  induction loaded with
  | nil =>
    intro result h
    obtain ⟨t, ht, -⟩ := h
    cases ht
  | cons t rest ih =>
    intro result h
    unfold loadFiles
    by_cases hbad : ∃ d ∈ t, d.Enabled = true ∧ d.ID = ""
    · obtain ⟨why, hw⟩ := appendEnabled_panics t result hbad
      rw [hw]
      exact ⟨_, rfl⟩
    · have hgood : ∀ d ∈ t, d.Enabled = true → d.ID ≠ "" :=
        fun d hd he hid => hbad ⟨d, hd, he, hid⟩
      obtain ⟨result1, hr⟩ := appendEnabled_returns t result hgood
      rw [hr]
      apply ih
      obtain ⟨x, hx, hrest⟩ := h
      rcases List.mem_cons.mp hx with rfl | hx
      · exact absurd hrest hbad
      · exact ⟨x, hx, hrest⟩

/-- The loop over the files returns when every enabled record has a non-empty
id. -/
theorem loadFiles_returns (loaded : List (List Dependency)) :
    ∀ result : GlobalDependencies,
      (∀ t ∈ loaded, ∀ d ∈ t, d.Enabled = true → d.ID ≠ "") →
      ∃ result1, loadFiles result loaded = .returned result1 := by
  induction loaded with
  | nil =>
    intro result _
    exact ⟨result, rfl⟩
  | cons t rest ih =>
    intro result h
    unfold loadFiles
    obtain ⟨result1, hr⟩ := appendEnabled_returns t result (h t (List.mem_cons_self _ _))
    rw [hr]
    exact ih result1 (fun x hx => h x (List.mem_cons_of_mem _ hx))

/-- The empty structure holds the enabled records of the empty list. -/
theorem Indexes_new : NewGlobalDependencies.Indexes [] :=
  ⟨fun _ => rfl, fun _ => rfl⟩

/-- A record that is switched off leaves the structure as it is. -/
theorem Indexes_skip (result : GlobalDependencies) (seen : List Dependency) (d : Dependency)
    (h : result.Indexes seen) (hd : d.Enabled = false) : result.Indexes (seen ++ [d]) := by
  obtain ⟨hs, hi⟩ := h
  constructor
  · intro service
    rw [hs service]
    simp [List.filter_append, List.filter_cons, hd]
  · intro id
    rw [hi id]
    simp [List.filter_append, List.filter_cons, hd]

/-- Appending an enabled record with a non-empty id returns, and the structure
then holds that record after the ones it held. -/
theorem Indexes_append (result : GlobalDependencies) (seen : List Dependency) (d : Dependency)
    (h : result.Indexes seen) (he : d.Enabled = true) (hid : d.ID ≠ "") :
    ∃ result1, result.appendDependency d = .returned result1 ∧
      result1.Indexes (seen ++ [d]) := by
  obtain ⟨hs, hi⟩ := h
  unfold GlobalDependencies.appendDependency
  rw [if_neg (fun hl => hid ((length_le_zero_iff d.ID).mp hl))]
  refine ⟨_, rfl, ?_, ?_⟩
  · intro service
    by_cases hsv : service = d.Service
    · subst hsv
      simp [hs, List.filter_append, List.filter_cons, he]
    · have hne : ¬ d.Service = service := fun h => hsv h.symm
      simp [hs, hsv, hne, List.filter_append, List.filter_cons, he]
  · intro id
    by_cases hsv : id = d.ID
    · subst hsv
      simp [List.filter_append, List.filter_cons, he]
    · have hne : ¬ d.ID = id := fun h => hsv h.symm
      simp [hi, hsv, hne, List.filter_append, List.filter_cons, he]

/-- The loop over the records of one file, started on a structure that holds
the enabled records seen so far, returns a structure that holds those and the
enabled records of the file. -/
theorem appendEnabled_indexes (t : List Dependency) :
    ∀ (result : GlobalDependencies) (seen : List Dependency), result.Indexes seen →
      (∀ d ∈ t, d.Enabled = true → d.ID ≠ "") →
      ∃ result1, appendEnabled result t = .returned result1 ∧ result1.Indexes (seen ++ t) := by
  induction t with
  | nil =>
    intro result seen h _
    exact ⟨result, rfl, by simpa using h⟩
  | cons d rest ih =>
    intro result seen h hgood
    unfold appendEnabled
    by_cases he : d.Enabled = true
    · simp only [he, if_true]
      obtain ⟨result1, hr, h1⟩ :=
        Indexes_append result seen d h he (hgood d (List.mem_cons_self _ _) he)
      rw [hr]
      obtain ⟨result2, hr2, h2⟩ :=
        ih result1 (seen ++ [d]) h1 (fun x hx => hgood x (List.mem_cons_of_mem _ hx))
      exact ⟨result2, hr2, by simpa using h2⟩
    · simp only [he]
      have hd : d.Enabled = false := by simpa using he
      obtain ⟨result2, hr2, h2⟩ :=
        ih result (seen ++ [d]) (Indexes_skip result seen d h hd)
          (fun x hx => hgood x (List.mem_cons_of_mem _ hx))
      exact ⟨result2, hr2, by simpa using h2⟩

/-- The loop over the files, started on a structure that holds the enabled
records seen so far, returns a structure that holds those and the enabled
records of all the files. -/
theorem loadFiles_indexes (loaded : List (List Dependency)) :
    ∀ (result : GlobalDependencies) (seen : List Dependency), result.Indexes seen →
      (∀ t ∈ loaded, ∀ d ∈ t, d.Enabled = true → d.ID ≠ "") →
      ∃ result1, loadFiles result loaded = .returned result1 ∧
        result1.Indexes (seen ++ loaded.flatten) := by
  induction loaded with
  | nil =>
    intro result seen h _
    exact ⟨result, rfl, by simpa using h⟩
  | cons t rest ih =>
    intro result seen h hgood
    unfold loadFiles
    obtain ⟨result1, hr, h1⟩ :=
      appendEnabled_indexes t result seen h (hgood t (List.mem_cons_self _ _))
    rw [hr]
    obtain ⟨result2, hr2, h2⟩ :=
      ih result1 (seen ++ t) h1 (fun x hx => hgood x (List.mem_cons_of_mem _ hx))
    exact ⟨result2, hr2, by simpa [List.append_assoc] using h2⟩

/-- C10, as stated, fails: a list holding a record with an empty id is loaded
without a panic when that record is switched off. -/
theorem disabled_record_without_id_is_loaded :
    disabledWithoutId ∈ [aliceWantsWeb, disabledWithoutId] ∧
    disabledWithoutId.ID = "" ∧
    ∃ result, LoadDependenciesFromDir [[aliceWantsWeb, disabledWithoutId]] = .returned result ∧
      result.DependenciesByID "d1" = some aliceWantsWeb ∧
      result.DependenciesByID "" = none ∧
      result.DependenciesByService "web" = [aliceWantsWeb] :=
  ⟨by decide, rfl, _, rfl, rfl, rfl, rfl⟩

/-- C10, amended. A non-empty id is required of every enabled dependency
record. Loading panics when some enabled record has an empty id. When none
has, loading returns, and the result holds exactly the enabled records: the
slice of each service is the enabled records of that service in loading order,
the entry of each id is the last enabled record bearing it, and a record that
is switched off is in no slice and under no id, whatever its id. Appending a
dependency with an empty id panics; after appending a dependency with a
non-empty id it is the entry of its id in `DependenciesByID` and the last
element of the slice of its service in `DependenciesByService`. -/
theorem enabled_dependency_needs_id :
    (∀ loaded : List (List Dependency),
      (∃ t ∈ loaded, ∃ d ∈ t, d.Enabled = true ∧ d.ID = "") →
      ∃ why, LoadDependenciesFromDir loaded = .panicked why) ∧
    (∀ loaded : List (List Dependency),
      (∀ t ∈ loaded, ∀ d ∈ t, d.Enabled = true → d.ID ≠ "") →
      ∃ result, LoadDependenciesFromDir loaded = .returned result ∧
        (∀ service, result.DependenciesByService service =
          loaded.flatten.filter (fun d => d.Enabled && d.Service == service)) ∧
        (∀ id, result.DependenciesByID id =
          (loaded.flatten.filter (fun d => d.Enabled && d.ID == id)).getLast?) ∧
        (∀ d : Dependency, d.Enabled = false →
          (∀ service, d ∉ result.DependenciesByService service) ∧
          (∀ id, result.DependenciesByID id ≠ some d))) ∧
    (∀ (src : GlobalDependencies) (d : Dependency), d.ID = "" →
      ∃ why, src.appendDependency d = .panicked why) ∧
    (∀ (src : GlobalDependencies) (d : Dependency), d.ID ≠ "" →
      ∃ result, src.appendDependency d = .returned result ∧
        result.DependenciesByID d.ID = some d ∧
        (result.DependenciesByService d.Service).getLast? = some d ∧
        result.DependenciesByService d.Service = src.DependenciesByService d.Service ++ [d]) := by
  refine ⟨fun loaded h => loadFiles_panics loaded _ h, ?_,
    fun src d h => ⟨_, appendDependency_panics src d h⟩, ?_⟩
  · intro loaded hgood
    obtain ⟨result, hr, hs, hi⟩ := loadFiles_indexes loaded NewGlobalDependencies [] Indexes_new hgood
    simp only [List.nil_append] at hs hi
    refine ⟨result, hr, hs, hi, ?_⟩
    intro d hd
    constructor
    · intro service hmem
      rw [hs service] at hmem
      have := (List.mem_filter.mp hmem).2
      simp [hd] at this
    · intro id hsome
      rw [hi id] at hsome
      have hmem := List.mem_of_getLast?_eq_some hsome
      have := (List.mem_filter.mp hmem).2
      simp [hd] at this
  · intro src d h
    unfold GlobalDependencies.appendDependency
    rw [if_neg (fun hl => h ((length_le_zero_iff d.ID).mp hl))]
    exact ⟨_, rfl, by simp, by simp, by simp⟩

/-- C10, amended, at concrete inputs: a file with an enabled record without id
is rejected; files with `d1` enabled and two records switched off, one with and
one without id, load into a structure that holds `d1` alone; and appending `d1`
to the empty structure stores it under its id and at the end of the slice of
service `web`. -/
theorem enabled_dependency_needs_id_witness :
    (∃ why, LoadDependenciesFromDir [[aliceWantsWeb], [enabledWithoutId]] = .panicked why) ∧
    (∃ result,
      LoadDependenciesFromDir [[disabledWithId, aliceWantsWeb], [disabledWithoutId]] =
        .returned result ∧
      (∀ service, result.DependenciesByService service =
        [disabledWithId, aliceWantsWeb, disabledWithoutId].filter
          (fun d => d.Enabled && d.Service == service)) ∧
      (∀ id, result.DependenciesByID id =
        ([disabledWithId, aliceWantsWeb, disabledWithoutId].filter
          (fun d => d.Enabled && d.ID == id)).getLast?) ∧
      (∀ d : Dependency, d.Enabled = false →
        (∀ service, d ∉ result.DependenciesByService service) ∧
        (∀ id, result.DependenciesByID id ≠ some d))) ∧
    (∃ result, NewGlobalDependencies.appendDependency aliceWantsWeb = .returned result ∧
      result.DependenciesByID aliceWantsWeb.ID = some aliceWantsWeb ∧
      (result.DependenciesByService aliceWantsWeb.Service).getLast? = some aliceWantsWeb ∧
      result.DependenciesByService aliceWantsWeb.Service =
        NewGlobalDependencies.DependenciesByService aliceWantsWeb.Service ++ [aliceWantsWeb]) :=
  ⟨enabled_dependency_needs_id.1 [[aliceWantsWeb], [enabledWithoutId]]
      ⟨[enabledWithoutId], by decide, enabledWithoutId, by decide, rfl, rfl⟩,
    enabled_dependency_needs_id.2.1 [[disabledWithId, aliceWantsWeb], [disabledWithoutId]]
      (by decide),
    enabled_dependency_needs_id.2.2.2 NewGlobalDependencies aliceWantsWeb (by decide)⟩

end slinga

/-! ## Deletion from the actual state -/

namespace component

/-- A context comes from itself by no entry and no call. -/
theorem DeployedFrom_self (context : Context) : context.DeployedFrom context :=
  ⟨[], [], by simp, by simp⟩

/-- Writing an entry to the event log keeps the relation. -/
theorem DeployedFrom_log (context1 context : Context) (entry : LogEntry)
    (h : context1.DeployedFrom context) : (context1.log entry).DeployedFrom context := by
  obtain ⟨entries, calls, rfl, hcalls⟩ := h
  exact ⟨entries ++ [entry], calls, by simp [Context.log], hcalls⟩

/-- Recording a call that is no store mutation keeps the relation. -/
theorem DeployedFrom_record (context1 context : Context) (call : Call)
    (hcall : call.isStore = false)
    (h : context1.DeployedFrom context) : (context1.record call).DeployedFrom context := by
  obtain ⟨entries, calls, rfl, hcalls⟩ := h
  refine ⟨entries, calls ++ [call], by simp [Context.record], ?_⟩
  intro c hc
  rcases List.mem_append.mp hc with hc | hc
  · exact hcalls c hc
  · rw [List.mem_singleton.mp hc]
    exact hcall

/-- The deployment step of a delete action writes to the event log and makes
calls, none of them a store mutation, and changes nothing else. -/
theorem DeleteAction_processDeployment_deployed (a : DeleteAction)
    (context context1 : Context) (err : Option GoError)
    (h : a.processDeployment context = .returned (context1, err)) :
    context1.DeployedFrom context := by
  unfold DeleteAction.processDeployment at h
  repeat' split at h
  all_goals
    cases h
    repeat first
      | exact DeployedFrom_self _
      | apply DeployedFrom_log
      | refine DeployedFrom_record _ _ _ (by rfl) ?_

/-- C11. `DeleteAction.Apply` removes the key from the actual state exactly when
the deployment step succeeds. If the deployment step returns an error, `Apply`
returns an error, the actual-state map is the one before the call and no store
mutation is among the calls made. If the deployment step returns nil, the
actual-state map afterwards is the prior map with the key erased (the key reads
as absent, every other key reads as before) and the one store mutation made is
`Delete` with the key, after the calls of the deployment step. If the
deployment step panics, so does `Apply`. -/
theorem DeleteAction_erases_key_exactly_on_deployment_success (a : DeleteAction)
    (context : Context) :
    (∀ context1 err, a.processDeployment context = .returned (context1, some err) →
      ∃ context2 err2 calls, a.Apply context = .returned (context2, some err2) ∧
        context2.ActualState = context.ActualState ∧
        context2.Calls = context.Calls ++ calls ∧
        ∀ call ∈ calls, call.isStore = false) ∧
    (∀ context1, a.processDeployment context = .returned (context1, none) →
      ∃ context2 err2 calls, a.Apply context = .returned (context2, err2) ∧
        context2.ActualState = context.ActualState.delete a.ComponentKey ∧
        context2.ActualState.ComponentInstanceMap a.ComponentKey = none ∧
        (∀ key, key ≠ a.ComponentKey →
          context2.ActualState.ComponentInstanceMap key =
            context.ActualState.ComponentInstanceMap key) ∧
        context2.Calls = context.Calls ++ calls ++ [.storeDelete a.ComponentKey] ∧
        ∀ call ∈ calls, call.isStore = false) ∧
    (∀ why, a.processDeployment context = .panicked why →
      a.Apply context = .panicked why) := by
  refine ⟨?_, ?_, ?_⟩
  · intro context1 err hd
    obtain ⟨entries, calls, hc, hcalls⟩ :=
      DeleteAction_processDeployment_deployed a context context1 (some err) hd
    refine ⟨context1.log (.error err), actionFailure "deleting" a.ComponentKey err, calls,
      ?_, ?_, ?_, hcalls⟩
    · unfold DeleteAction.Apply
      simp only [hd]
    · rw [hc]
      rfl
    · rw [hc]
      rfl
  · intro context1 hd
    obtain ⟨entries, calls, hc, hcalls⟩ :=
      DeleteAction_processDeployment_deployed a context context1 none hd
    have happly : a.Apply context = a.updateActualState context1 := by
      unfold DeleteAction.Apply
      simp only [hd]
    have hstate : ∀ context2 err2, a.updateActualState context1 = .returned (context2, err2) →
        context2.ActualState = context.ActualState.delete a.ComponentKey ∧
        context2.Calls = context.Calls ++ calls ++ [.storeDelete a.ComponentKey] := by
      intro context2 err2 hu
      unfold DeleteAction.updateActualState at hu
      split at hu
      · cases hu
        rw [hc]
        exact ⟨rfl, rfl⟩
      · cases hu
        rw [hc]
        exact ⟨rfl, rfl⟩
    have hreturns : ∃ context2 err2, a.updateActualState context1 = .returned (context2, err2) := by
      unfold DeleteAction.updateActualState
      split
      · exact ⟨_, _, rfl⟩
      · exact ⟨_, _, rfl⟩
    obtain ⟨context2, err2, hu⟩ := hreturns
    obtain ⟨hs, hcs⟩ := hstate context2 err2 hu
    refine ⟨context2, err2, calls, happly.trans hu, hs, ?_, ?_, hcs, hcalls⟩
    · rw [hs]
      simp [State.delete]
    · intro key hkey
      rw [hs]
      simp [State.delete, hkey]
  · intro why hd
    unfold DeleteAction.Apply
    simp only [hd]

/-- C11, at concrete inputs: deleting `srv` fails in the deployment step when
the cluster cannot be found, and then the actual state still holds `srv` and
the store was not called; it succeeds when the cluster is found, and then
`srv` is gone from the actual state and the store's `Delete` was called with
its key. -/
theorem DeleteAction_erases_key_exactly_on_deployment_success_witness :
    (∃ context2 err2 calls,
      DeleteAction.Apply ⟨"main#web#srv"⟩ clusterOnlyInActualContext =
        .returned (context2, some err2) ∧
      context2.ActualState = clusterOnlyInActualContext.ActualState ∧
      context2.Calls = clusterOnlyInActualContext.Calls ++ calls ∧
      ∀ call ∈ calls, call.isStore = false) ∧
    (∃ context2 err2 calls,
      DeleteAction.Apply ⟨"main#web#srv"⟩ clusterRedefinedContext =
        .returned (context2, err2) ∧
      context2.ActualState = clusterRedefinedContext.ActualState.delete "main#web#srv" ∧
      context2.ActualState.ComponentInstanceMap "main#web#srv" = none ∧
      (∀ key, key ≠ "main#web#srv" →
        context2.ActualState.ComponentInstanceMap key =
          clusterRedefinedContext.ActualState.ComponentInstanceMap key) ∧
      context2.Calls = clusterRedefinedContext.Calls ++ calls ++
        [.storeDelete "main#web#srv"] ∧
      ∀ call ∈ calls, call.isStore = false) :=
  ⟨(DeleteAction_erases_key_exactly_on_deployment_success ⟨"main#web#srv"⟩
      clusterOnlyInActualContext).1 _ (cantFindCluster "c1") rfl,
    (DeleteAction_erases_key_exactly_on_deployment_success ⟨"main#web#srv"⟩
      clusterRedefinedContext).2.1 _ rfl⟩

end component
